import Mathlib

/-!
Verification of the booking backend (`src/app/main.py`).

The program is a FastAPI application over a SQLite table of bookings.  The
core reservation engine is embedded shallowly below:

* the SQLAlchemy `Booking` row becomes the structure `Booking`; the database
  table (plus SQLite's fresh-id assignment) becomes the structure `Store`,
  a list of rows with a fresh-id counter;
* the handlers `list_bookings`, `create_booking`, `delete_booking` and
  `update_booking` become pure functions from their inputs and a `Store`
  to `Except ApiError` results; an `HTTPException(status, detail)` raised
  before `db.commit()` leaves the database unchanged in the source, which
  the embedding reflects by returning only the error (no new store);
* times are UNIX epoch seconds (Python `int`), embedded as `Int`.  The
  local-datetime-to-epoch conversions at the HTTP boundary
  (`dt_local_to_epoch`, `datetime.fromisoformat`, zoneinfo arithmetic in
  lines 145-157 and 217-222 of `main.py`) are outside the engine: the
  handlers are modelled at the point where the epoch values have been
  computed, so `create_booking` takes the computed `start_ts`/`end_ts`
  pair and `update_booking` takes the already-converted optional absolute
  end.  Likewise `epoch_to_local_iso` rendering of results is dropped: the
  embedded handlers return the stored row itself.
-/

namespace BookingApp

/-- The SQLAlchemy model `Booking` (main.py lines 25-33): one row of the
`bookings` table.  `id` is the primary key, `start_utc`/`end_utc` are UNIX
epoch seconds (UTC). -/
structure Booking where
  id : Nat
  resource_id : Int
  name : String
  phone : Option String
  start_utc : Int
  end_utc : Int
deriving DecidableEq, Repr

/-- The static resource catalog `RESOURCES` (main.py lines 40-45). -/
def RESOURCES : List (Int × String) :=
  [(1, "Pool 1"), (2, "Pool 2"), (3, "Pool 3"), (4, "Shuffleboard 1")]

/-- The keys of `resources_dict()` (main.py lines 81-82): the catalog is
only ever used through the membership test `resource_id not in
resources_dict()`, so the embedding keeps the key list. -/
def resources_dict : List Int := RESOURCES.map Prod.fst

/-- `overlap(a1, a2, b1, b2)` (main.py lines 78-79):
`return a1 < b2 and a2 > b1`. -/
def overlap (a1 a2 b1 b2 : Int) : Bool :=
  decide (a1 < b2) && decide (a2 > b1)

/-- The bookings table together with SQLite's fresh primary-key counter.
`Store.empty` is the freshly created database (`Base.metadata.create_all`). -/
structure Store where
  rows : List Booking
  nextId : Nat
deriving DecidableEq, Repr

def Store.empty : Store := ⟨[], 1⟩

/-- An `HTTPException(status_code, detail)` raised by a handler. -/
inductive ApiError where
  | http (status : Nat) (detail : String)
deriving DecidableEq, Repr

deriving instance DecidableEq for Except

/-- Python's `str.strip()`: drop leading and trailing whitespace.  (The
built-in `String.trim` has the same meaning but its auxiliary recursion does
not reduce in the kernel, so the embedding uses this list-based form.) -/
def strip (s : String) : String :=
  ⟨((s.data.dropWhile Char.isWhitespace).reverse.dropWhile Char.isWhitespace).reverse⟩

/-- `(payload.phone or "").strip() or None` (main.py line 172): a missing or
whitespace-only phone is stored as NULL, otherwise the stripped string. -/
def normPhone : Option String → Option String
  | none => none
  | some p => if strip p = "" then none else some (strip p)

/-- The handler `create_booking` (main.py lines 141-191), entered at the
point where the boundary conversion has produced the epoch pair
`start_ts`/`end_ts` (the date/time parsing and zoneinfo arithmetic of lines
144-157 happen before the engine logic and are outside the embedding; the
schema bound on `duration_minutes` is `CreateBookingIn_valid` below).
Steps, in source order: reject an unknown `resource_id` with 404; scan the
bookings on that resource and reject any `overlap` with 409; otherwise
insert the new row (trimmed name, normalised phone, fresh id) and return
it. -/
def create_booking (resource_id : Int) (name : String) (phone : Option String)
    (start_ts end_ts : Int) (db : Store) : Except ApiError (Booking × Store) :=
  if !(resources_dict.contains resource_id) then
    .error (.http 404 "Unknown resource_id")
  else
    let existing := db.rows.filter (fun r => r.resource_id == resource_id)
    if existing.any (fun r => overlap start_ts end_ts r.start_utc r.end_utc) then
      .error (.http 409 "Booking overlaps existing reservation")
    else
      let row : Booking :=
        { id := db.nextId, resource_id := resource_id, name := strip name,
          phone := normPhone phone, start_utc := start_ts, end_utc := end_ts }
      .ok (row, { rows := db.rows ++ [row], nextId := db.nextId + 1 })

/-- The pydantic validation of `CreateBookingIn.duration_minutes`
(main.py line 62): `Field(ge=15, le=8*60)`.  A request failing it is
rejected by FastAPI with a 422 validation error before the handler runs. -/
def CreateBookingIn_valid (duration_minutes : Int) : Bool :=
  decide (15 ≤ duration_minutes) && decide (duration_minutes ≤ 8 * 60)

/-- The "Beregn ny slut" block of `update_booking` (main.py lines 213-222):
`add_minutes` takes precedence over `end_iso_local` (`if payload.add_minutes
is not None`); with neither supplied the handler raises 400.  `end_ts_abs`
is the epoch value of `end_iso_local` after the boundary ISO parsing. -/
def compute_new_end (add_minutes : Option Int) (end_ts_abs : Option Int)
    (cur_end : Int) : Except ApiError Int :=
  match add_minutes with
  | some m => .ok (cur_end + m * 60)
  | none =>
    match end_ts_abs with
    | some e => .ok e
    | none => .error (.http 400 "Provide add_minutes or end_iso_local")

/-- The handler `update_booking` (main.py lines 205-246): look the row up by
primary key (404 if absent), compute the new end via `compute_new_end`,
reject `new_end_ts <= row.start_utc` with 400, scan the other bookings on
the row's resource (excluding the row's own id) and reject any `overlap`
with 409; otherwise set `end_utc := new_end_ts`, commit, and return the
updated row. -/
def update_booking (booking_id : Nat) (add_minutes : Option Int)
    (end_ts_abs : Option Int) (db : Store) : Except ApiError (Booking × Store) :=
  match db.rows.find? (fun r => r.id == booking_id) with
  | none => .error (.http 404 "Booking not found")
  | some row =>
    match compute_new_end add_minutes end_ts_abs row.end_utc with
    | .error e => .error e
    | .ok new_end_ts =>
      if decide (new_end_ts ≤ row.start_utc) then
        .error (.http 400 "New end must be after start")
      else
        let existing := db.rows.filter
          (fun r => r.resource_id == row.resource_id && r.id != row.id)
        if existing.any (fun r => overlap row.start_utc new_end_ts r.start_utc r.end_utc) then
          .error (.http 409 "Extension overlaps another booking")
        else
          let row' : Booking := { row with end_utc := new_end_ts }
          .ok (row', { rows := db.rows.map (fun r => if r.id == row.id then row' else r),
                       nextId := db.nextId })

/-- The handler `delete_booking` (main.py lines 193-203): 404 if the id is
absent, otherwise remove the row permanently. -/
def delete_booking (booking_id : Nat) (db : Store) : Except ApiError Store :=
  match db.rows.find? (fun r => r.id == booking_id) with
  | none => .error (.http 404 "Booking not found")
  | some _ => .ok { rows := db.rows.filter (fun r => r.id != booking_id), nextId := db.nextId }

/-- The handler `list_bookings` (main.py lines 114-139), with the optional
`from_`/`to` ISO strings already converted to epoch seconds at the boundary
(lines 120-124).  A row is skipped when `f_ts` is set and `end_utc <= f_ts`,
or when `t_ts` is set and `start_utc >= t_ts`; all other rows are returned
(the `BookingOut` local-ISO rendering is dropped, the rows themselves are
returned). -/
def list_bookings (f_ts t_ts : Option Int) (db : Store) : List Booking :=
  db.rows.filter (fun r =>
    (match f_ts with
     | none => true
     | some f => !decide (r.end_utc ≤ f)) &&
    (match t_ts with
     | none => true
     | some t => !decide (r.start_utc ≥ t)))

/-- The store left behind by a `create_booking` call: on an error the
handler raises before `db.commit()`, so the database is unchanged. -/
def create_booking_state (resource_id : Int) (name : String) (phone : Option String)
    (start_ts end_ts : Int) (db : Store) : Store :=
  match create_booking resource_id name phone start_ts end_ts db with
  | .ok (_, db') => db'
  | .error _ => db

/-- The store left behind by an `update_booking` call: on an error the
handler raises before `db.commit()`, so the database is unchanged. -/
def update_booking_state (booking_id : Nat) (add_minutes : Option Int)
    (end_ts_abs : Option Int) (db : Store) : Store :=
  match update_booking booking_id add_minutes end_ts_abs db with
  | .ok (_, db') => db'
  | .error _ => db

/-! ### Basic facts about the overlap test -/

theorem overlap_eq_true_iff (a1 a2 b1 b2 : Int) :
    overlap a1 a2 b1 b2 = true ↔ (a1 < b2 ∧ a2 > b1) := by
  simp [overlap]

theorem overlap_eq_false_iff (a1 a2 b1 b2 : Int) :
    overlap a1 a2 b1 b2 = false ↔ ¬(a1 < b2 ∧ a2 > b1) := by
  rw [← Bool.not_eq_true, overlap_eq_true_iff]

theorem overlap_comm (a1 a2 b1 b2 : Int) :
    overlap a1 a2 b1 b2 = overlap b1 b2 a1 a2 := by
  simp only [overlap, gt_iff_lt]
  exact Bool.and_comm _ _

/-! ### The per-resource no-overlap invariant and its preservation -/

/-- Two distinct stored rows are compatible: different primary keys, and if
they book the same resource their half-open intervals do not overlap. -/
def GoodPair (a b : Booking) : Prop :=
  a.id ≠ b.id ∧ (a.resource_id = b.resource_id →
    overlap a.start_utc a.end_utc b.start_utc b.end_utc = false)

theorem goodPair_symm {a b : Booking} (h : GoodPair a b) : GoodPair b a := by
  refine ⟨Ne.symm h.1, fun hr => ?_⟩
  rw [overlap_comm]
  exact h.2 hr.symm

/-- The store invariant: ids are below the fresh-id counter (hence fresh ids
really are fresh) and all stored rows are pairwise compatible. -/
def Inv (db : Store) : Prop :=
  (∀ r ∈ db.rows, r.id < db.nextId) ∧ db.rows.Pairwise GoodPair

theorem inv_empty : Inv Store.empty := by
  constructor
  · intro r hr
    simp [Store.empty] at hr
  · simp [Store.empty]

theorem inv_create {db db' : Store} {rid : Int} {nm : String} {ph : Option String}
    {s e : Int} {b : Booking}
    (hinv : Inv db) (h : create_booking rid nm ph s e db = .ok (b, db')) : Inv db' := by
  simp only [create_booking] at h
  split at h
  · simp at h
  split at h
  · simp at h
  next hover =>
  simp only [Except.ok.injEq, Prod.mk.injEq] at h
  obtain ⟨hb, hdb⟩ := h
  subst hdb
  have hnov : ∀ r ∈ db.rows, r.resource_id = rid →
      overlap s e r.start_utc r.end_utc = false := by
    intro r hrmem hres
    cases ho : overlap s e r.start_utc r.end_utc with
    | false => rfl
    | true =>
      exact absurd (List.any_eq_true.mpr
        ⟨r, List.mem_filter.mpr ⟨hrmem, by simp [hres]⟩, ho⟩) hover
  constructor
  · intro r hr
    rcases List.mem_append.mp hr with hl | hr1
    · exact Nat.lt_succ_of_lt (hinv.1 r hl)
    · rw [List.mem_singleton.mp hr1]
      exact Nat.lt_succ_self _
  · rw [List.pairwise_append]
    refine ⟨hinv.2, List.pairwise_singleton _ _, ?_⟩
    intro a ha c hc
    rw [List.mem_singleton.mp hc]
    refine ⟨Nat.ne_of_lt (hinv.1 a ha), fun hres => ?_⟩
    rw [overlap_comm]
    exact hnov a ha hres

theorem inv_update {db db' : Store} {bid : Nat} {am ea : Option Int} {b : Booking}
    (hinv : Inv db) (h : update_booking bid am ea db = .ok (b, db')) : Inv db' := by
  simp only [update_booking] at h
  split at h
  · simp at h
  next row hfind =>
  split at h
  · simp at h
  next new_end hcomp =>
  split at h
  · simp at h
  split at h
  · simp at h
  next hover =>
  simp only [Except.ok.injEq, Prod.mk.injEq] at h
  obtain ⟨hb, hdb⟩ := h
  subst hdb
  have hnov : ∀ r ∈ db.rows, r.id ≠ row.id → r.resource_id = row.resource_id →
      overlap row.start_utc new_end r.start_utc r.end_utc = false := by
    intro r hrmem hrid hres
    cases ho : overlap row.start_utc new_end r.start_utc r.end_utc with
    | false => rfl
    | true =>
      exact absurd (List.any_eq_true.mpr
        ⟨r, List.mem_filter.mpr ⟨hrmem, by simp [hres, hrid]⟩, ho⟩) hover
  have hrow'_good : ∀ x ∈ db.rows, x.id ≠ row.id →
      GoodPair { row with end_utc := new_end } x := by
    intro x hx hxid
    exact ⟨Ne.symm hxid, fun hres => hnov x hx hxid hres.symm⟩
  constructor
  · intro r hr
    rcases List.mem_map.mp hr with ⟨r0, hr0, hfr⟩
    have : r.id = r0.id := by
      rw [← hfr]
      split
      · next hc => exact (beq_iff_eq.mp hc).symm
      · rfl
    rw [this]
    exact hinv.1 r0 hr0
  · rw [List.pairwise_map]
    refine hinv.2.imp_of_mem ?_
    intro a c ha hc hg
    by_cases haid : a.id = row.id
    · by_cases hcid : c.id = row.id
      · exact absurd (haid.trans hcid.symm) hg.1
      · simp only [haid, beq_self_eq_true, if_true, beq_iff_eq, hcid, if_neg hcid]
        exact hrow'_good c hc hcid
    · by_cases hcid : c.id = row.id
      · simp only [beq_iff_eq, if_neg haid, hcid, if_pos rfl]
        exact goodPair_symm (hrow'_good a ha haid)
      · simp only [beq_iff_eq, if_neg haid, if_neg hcid]
        exact hg

theorem inv_delete {db db' : Store} {bid : Nat}
    (hinv : Inv db) (h : delete_booking bid db = .ok db') : Inv db' := by
  simp only [delete_booking] at h
  split at h
  · simp at h
  simp only [Except.ok.injEq] at h
  subst h
  constructor
  · intro r hr
    exact hinv.1 r (List.mem_filter.mp hr).1
  · exact hinv.2.sublist (List.filter_sublist _)

/-- The reachable store states: the empty database, closed under every
successful `create_booking`, `update_booking` and `delete_booking` call
(failed calls raise before `db.commit()` and leave the store unchanged). -/
inductive Reachable : Store → Prop
  | empty : Reachable Store.empty
  | create {db db' : Store} {rid : Int} {nm : String} {ph : Option String}
      {s e : Int} {b : Booking} :
      Reachable db → create_booking rid nm ph s e db = .ok (b, db') → Reachable db'
  | update {db db' : Store} {bid : Nat} {am ea : Option Int} {b : Booking} :
      Reachable db → update_booking bid am ea db = .ok (b, db') → Reachable db'
  | delete {db db' : Store} {bid : Nat} :
      Reachable db → delete_booking bid db = .ok db' → Reachable db'

theorem inv_of_reachable {db : Store} (h : Reachable db) : Inv db := by
  induction h with
  | empty => exact inv_empty
  | create _ hc ih => exact inv_create ih hc
  | update _ hu ih => exact inv_update ih hu
  | delete _ hd ih => exact inv_delete ih hd

/-! ### Sample rows and stores used by the concrete witnesses -/

def rowA : Booking := ⟨1, 1, "Alice", none, 1000, 2000⟩

def rowC : Booking := ⟨2, 1, "Carol", none, 2000, 2500⟩

def rowA' : Booking := ⟨1, 1, "Alice", none, 1000, 1600⟩

def store1 : Store := ⟨[rowA], 2⟩

def store2 : Store := ⟨[rowA, rowC], 3⟩

def store3 : Store := ⟨[rowA', rowC], 3⟩

/-! ### The claims -/

/-- C1: for every reachable store state, for every resource, no two distinct
stored bookings on that resource have overlapping half-open intervals.
Reachability is closed under every successful create, extend and delete, so
the invariant holds in particular immediately after every successful
`create_booking` and every successful `update_booking`. -/
theorem no_overlap_invariant {db : Store} (h : Reachable db) :
    db.rows.Pairwise (fun A B => A.resource_id = B.resource_id →
      ¬(A.start_utc < B.end_utc ∧ A.end_utc > B.start_utc)) := by
  refine (inv_of_reachable h).2.imp ?_
  intro A B hg hres
  exact (overlap_eq_false_iff _ _ _ _).mp (hg.2 hres)

theorem no_overlap_invariant_witness :
    store3.rows.Pairwise (fun A B => A.resource_id = B.resource_id →
      ¬(A.start_utc < B.end_utc ∧ A.end_utc > B.start_utc)) :=
  no_overlap_invariant
    (Reachable.update
      (Reachable.create
        (Reachable.create Reachable.empty
          (show create_booking 1 "Alice" none 1000 2000 Store.empty =
            .ok (rowA, store1) by decide))
        (show create_booking 1 "Carol" none 2000 2500 store1 =
          .ok (rowC, store2) by decide))
      (show update_booking 1 none (some 1600) store2 =
        .ok (rowA', store3) by decide))

/-- C2: the overlap test on half-open intervals returns true iff
`a1 < b2 ∧ a2 > b1`; two intervals touching end-to-start never overlap; and
creating a booking whose start equals the end of the single existing booking
`A` on a catalogued resource succeeds. -/
theorem overlap_halfopen_spec
    (a1 a2 b1 b2 : Int) (db : Store) (rid : Int) (nm : String) (ph : Option String)
    (A : Booking) (e : Int) :
    (overlap a1 a2 b1 b2 = true ↔ (a1 < b2 ∧ a2 > b1))
    ∧ (a2 = b1 ∨ b2 = a1 → overlap a1 a2 b1 b2 = false)
    ∧ (resources_dict.contains rid = true →
       db.rows.filter (fun r => r.resource_id == rid) = [A] →
       create_booking rid nm ph A.end_utc e db =
         .ok ({ id := db.nextId, resource_id := rid, name := strip nm,
                phone := normPhone ph, start_utc := A.end_utc, end_utc := e },
              { rows := db.rows ++
                  [{ id := db.nextId, resource_id := rid, name := strip nm,
                     phone := normPhone ph, start_utc := A.end_utc, end_utc := e }],
                nextId := db.nextId + 1 })) := by
  refine ⟨overlap_eq_true_iff a1 a2 b1 b2, ?_, ?_⟩
  · rintro (rfl | rfl) <;> simp [overlap]
  · intro hrid hfilter
    have hmem : rid ∈ resources_dict := by simpa using hrid
    simp [create_booking, hmem, hfilter, overlap]

theorem overlap_halfopen_spec_witness :
    create_booking 1 "Bob" none rowA.end_utc 2500 store1 =
      .ok ({ id := store1.nextId, resource_id := 1, name := strip "Bob",
             phone := normPhone none, start_utc := rowA.end_utc, end_utc := 2500 },
           { rows := store1.rows ++
               [{ id := store1.nextId, resource_id := 1, name := strip "Bob",
                  phone := normPhone none, start_utc := rowA.end_utc, end_utc := 2500 }],
             nextId := store1.nextId + 1 }) :=
  (overlap_halfopen_spec 0 0 0 0 store1 1 "Bob" none rowA 2500).2.2
    (by decide) (by decide)

/-- C3 counterexample: a create call whose computed interval is the
degenerate `[1000, 1000)` (end = start) does not fail at all — there is no
InvalidInterval outcome — and the degenerate booking IS stored. -/
theorem create_degenerate_interval_accepted :
    (1000 : Int) ≤ 1000 ∧
    create_booking 1 "Alice" none 1000 1000 Store.empty =
      .ok (⟨1, 1, "Alice", none, 1000, 1000⟩,
           ⟨[⟨1, 1, "Alice", none, 1000, 1000⟩], 2⟩) :=
  ⟨le_refl 1000, by decide⟩

/-- C3 (amended): `create_booking` performs no `end <= start` interval
check: its only failure outcomes are UnknownResource (404) and Overlap
(409); in particular no create call ever fails with an invalid-interval
error.  The only interval-related validation on the create path is the
schema bound `CreateBookingIn_valid` on `duration_minutes`. -/
theorem create_error_is_resource_or_overlap
    (rid : Int) (nm : String) (ph : Option String) (s e : Int) (db : Store)
    (err : ApiError)
    (h : create_booking rid nm ph s e db = .error err) :
    err = .http 404 "Unknown resource_id" ∨
    err = .http 409 "Booking overlaps existing reservation" := by
  simp only [create_booking] at h
  split at h
  · injection h with h1
    exact Or.inl h1.symm
  split at h
  · injection h with h1
    exact Or.inr h1.symm
  · simp at h

theorem create_error_is_resource_or_overlap_witness :
    ApiError.http 404 "Unknown resource_id" = .http 404 "Unknown resource_id" ∨
    ApiError.http 404 "Unknown resource_id" = .http 409 "Booking overlaps existing reservation" :=
  create_error_is_resource_or_overlap 99 "Alice" none 0 10 Store.empty
    (.http 404 "Unknown resource_id") (by decide)

/-- C4 counterexample: a create call whose name is whitespace-only does not
fail with InvalidName — it succeeds, and the booking is stored with the
empty (trimmed) name. -/
theorem create_whitespace_name_accepted :
    strip "   " = "" ∧
    create_booking 1 "   " none 1000 2000 Store.empty =
      .ok (⟨1, 1, "", none, 1000, 2000⟩, ⟨[⟨1, 1, "", none, 1000, 2000⟩], 2⟩) :=
  ⟨rfl, by decide⟩

/-- C4 (amended): `create_booking` never validates the name: when a create
call with name `nm1` succeeds, the stored name is the trimmed input
(possibly empty), and the same call with any other name `nm2` also
succeeds. -/
theorem create_name_not_validated
    (rid : Int) (nm1 nm2 : String) (ph : Option String) (s e : Int) (db : Store)
    (b : Booking) (db' : Store)
    (h : create_booking rid nm1 ph s e db = .ok (b, db')) :
    b.name = strip nm1 ∧ (create_booking rid nm2 ph s e db).isOk = true := by
  simp only [create_booking] at h ⊢
  split at h
  · simp at h
  next hres =>
  split at h
  · simp at h
  next hover =>
  simp only [Except.ok.injEq, Prod.mk.injEq] at h
  refine ⟨?_, ?_⟩
  · rw [← h.1]
  · rw [if_neg hres, if_neg hover]
    rfl

theorem create_name_not_validated_witness :
    (Booking.mk 1 1 "" none 1000 2000).name = strip "   " ∧
    (create_booking 1 "Bob" none 1000 2000 Store.empty).isOk = true :=
  create_name_not_validated 1 "   " "Bob" none 1000 2000 Store.empty
    ⟨1, 1, "", none, 1000, 2000⟩ ⟨[⟨1, 1, "", none, 1000, 2000⟩], 2⟩ (by decide)

/-- C5: an extend call on an existing booking whose computed new end
overlaps another booking on the same resource (the booking's own id being
excluded from the scan) fails with the 409 Overlap error, and the store —
hence the stored booking's `end_utc` — is left unchanged. -/
theorem extend_overlap_fails
    (db : Store) (bid : Nat) (am ea : Option Int) (row : Booking) (new_end : Int)
    (hfind : db.rows.find? (fun r => r.id == bid) = some row)
    (hcomp : compute_new_end am ea row.end_utc = .ok new_end)
    (hgt : row.start_utc < new_end)
    (hover : (db.rows.filter
        (fun r => r.resource_id == row.resource_id && r.id != row.id)).any
        (fun r => overlap row.start_utc new_end r.start_utc r.end_utc) = true) :
    update_booking bid am ea db = .error (.http 409 "Extension overlaps another booking")
    ∧ update_booking_state bid am ea db = db := by
  have hu : update_booking bid am ea db =
      .error (.http 409 "Extension overlaps another booking") := by
    simp only [update_booking, hfind, hcomp]
    rw [if_neg (by simp only [decide_eq_true_eq]; exact not_le.mpr hgt), if_pos hover]
  exact ⟨hu, by simp [update_booking_state, hu]⟩

theorem extend_overlap_fails_witness :
    update_booking 1 (some 1) none store2 =
      .error (.http 409 "Extension overlaps another booking")
    ∧ update_booking_state 1 (some 1) none store2 = store2 :=
  extend_overlap_fails store2 1 (some 1) none rowA 2060
    (by decide) (by decide) (by decide) (by decide)

/-- C6: the list operation with both bounds returns exactly the bookings
with `end > X` and `start < Y`; an omitted bound drops that side of the
constraint; with both bounds omitted every stored booking is returned. -/
theorem list_bookings_range_filter (db : Store) (X Y : Int) (b : Booking) :
    (b ∈ list_bookings (some X) (some Y) db ↔
      b ∈ db.rows ∧ b.end_utc > X ∧ b.start_utc < Y)
    ∧ (b ∈ list_bookings (some X) none db ↔ b ∈ db.rows ∧ b.end_utc > X)
    ∧ (b ∈ list_bookings none (some Y) db ↔ b ∈ db.rows ∧ b.start_utc < Y)
    ∧ list_bookings none none db = db.rows := by
  refine ⟨?_, ?_, ?_, ?_⟩ <;>
    simp [list_bookings, List.mem_filter, not_le, and_assoc]

/-- C7: for an extend call on an existing booking, the new end is the
supplied absolute value or `current_end + add_minutes * 60`, and whenever
the computed new end is `≤ booking.start` the call fails with the 400
invalid-interval error, leaving the store unchanged. -/
theorem extend_new_end_spec
    (db : Store) (bid : Nat) (am ea : Option Int) (row : Booking)
    (hfind : db.rows.find? (fun r => r.id == bid) = some row) :
    (∀ m, am = some m →
      compute_new_end am ea row.end_utc = .ok (row.end_utc + m * 60))
    ∧ (∀ e2, am = none → ea = some e2 →
      compute_new_end am ea row.end_utc = .ok e2)
    ∧ (∀ ne2, compute_new_end am ea row.end_utc = .ok ne2 → ne2 ≤ row.start_utc →
      update_booking bid am ea db = .error (.http 400 "New end must be after start")
      ∧ update_booking_state bid am ea db = db) := by
  refine ⟨?_, ?_, ?_⟩
  · intro m hm
    subst hm
    rfl
  · intro e2 ham hea
    subst ham
    subst hea
    rfl
  · intro ne2 hcomp hle
    have hu : update_booking bid am ea db =
        .error (.http 400 "New end must be after start") := by
      simp only [update_booking, hfind, hcomp]
      rw [if_pos (decide_eq_true hle)]
    exact ⟨hu, by simp [update_booking_state, hu]⟩

theorem extend_new_end_spec_witness :
    update_booking 1 none (some 500) store2 =
      .error (.http 400 "New end must be after start")
    ∧ update_booking_state 1 none (some 500) store2 = store2 :=
  (extend_new_end_spec store2 1 none (some 500) rowA (by decide)).2.2 500
    (by decide) (by decide)

/-- C8: a create call whose `resource_id` is not in the catalog fails with
the 404 UnknownResource error whatever the time values are, and the store is
left unchanged. -/
theorem create_unknown_resource
    (rid : Int) (nm : String) (ph : Option String) (s e : Int) (db : Store)
    (h : resources_dict.contains rid = false) :
    create_booking rid nm ph s e db = .error (.http 404 "Unknown resource_id")
    ∧ create_booking_state rid nm ph s e db = db := by
  have hc : create_booking rid nm ph s e db =
      .error (.http 404 "Unknown resource_id") := by
    have hmem : rid ∉ resources_dict := by simpa using h
    simp [create_booking, hmem]
  exact ⟨hc, by simp [create_booking_state, hc]⟩

theorem create_unknown_resource_witness :
    create_booking 99 "Alice" none 1000 2000 Store.empty =
      .error (.http 404 "Unknown resource_id")
    ∧ create_booking_state 99 "Alice" none 1000 2000 Store.empty = Store.empty :=
  create_unknown_resource 99 "Alice" none 1000 2000 Store.empty (by decide)

/-- C9: a successful extend changes only the booking's `end_utc`: its id,
start, resource, name and phone are those of the stored row it found, the
fresh-id counter is unchanged, the new store substitutes the updated row for
the old one, and every other stored booking is still present unchanged. -/
theorem extend_frame
    (db : Store) (bid : Nat) (am ea : Option Int) (b : Booking) (db' : Store)
    (h : update_booking bid am ea db = .ok (b, db')) :
    ∃ row, db.rows.find? (fun r => r.id == bid) = some row
      ∧ b.id = row.id ∧ b.resource_id = row.resource_id ∧ b.name = row.name
      ∧ b.phone = row.phone ∧ b.start_utc = row.start_utc
      ∧ db'.nextId = db.nextId
      ∧ db'.rows = db.rows.map (fun r => if r.id == row.id then b else r)
      ∧ ∀ r ∈ db.rows, r.id ≠ row.id → r ∈ db'.rows := by
  simp only [update_booking] at h
  split at h
  · simp at h
  next row hfind =>
  split at h
  · simp at h
  next new_end hcomp =>
  split at h
  · simp at h
  split at h
  · simp at h
  simp only [Except.ok.injEq, Prod.mk.injEq] at h
  obtain ⟨hb, hdb⟩ := h
  subst hb
  subst hdb
  refine ⟨row, hfind, rfl, rfl, rfl, rfl, rfl, rfl, rfl, ?_⟩
  intro r hr hne
  exact List.mem_map.mpr ⟨r, hr, by simp [hne]⟩

theorem extend_frame_witness :
    ∃ row, store2.rows.find? (fun r => r.id == 1) = some row
      ∧ (rowA').id = row.id ∧ (rowA').resource_id = row.resource_id
      ∧ (rowA').name = row.name
      ∧ (rowA').phone = row.phone ∧ (rowA').start_utc = row.start_utc
      ∧ store3.nextId = store2.nextId
      ∧ store3.rows = store2.rows.map (fun r => if r.id == row.id then rowA' else r)
      ∧ ∀ r ∈ store2.rows, r.id ≠ row.id → r ∈ store3.rows :=
  extend_frame store2 1 none (some 1600) rowA' store3 (by decide)

/-- C10: when both `add_minutes` and an absolute end are supplied to an
extend call, `add_minutes` wins: the new end is `current_end +
add_minutes * 60` and the absolute end is ignored — the call behaves
exactly as if no absolute end had been supplied. -/
theorem extend_add_minutes_precedence
    (bid : Nat) (m : Int) (ea : Option Int) (cur : Int) (db : Store) :
    compute_new_end (some m) ea cur = .ok (cur + m * 60)
    ∧ update_booking bid (some m) ea db = update_booking bid (some m) none db := by
  exact ⟨rfl, rfl⟩

end BookingApp
